import Mathlib

/-!
Shallow embedding of the multi-agent code-review engine
(`src/core/models.py`, `src/core/agent.py`, `src/core/orchestrator.py`).

Conventions of the embedding:

* Python exceptions are modelled with `Except PyErr`; code that the source
  does not wrap in `try/except` propagates the error monadically.
* Python's insertion-ordered `dict` is modelled as an association list with
  `dictSet` for `d[k] = v` (overwrite keeps the original position).
* The Anthropic client, language detection and prompt construction are
  external collaborators of `analyze_code`; the composite
  `self.client.messages.create(...)` / `response.content[0].text` step is
  modelled by an `Except PyErr String` argument (a raised transport error or
  the raw response text), and Python's `json.loads` by a
  `String → Except PyErr Json` argument (a raised `ValueError` or the parsed
  document).
* Finding fields are typed as the dataclass annotations in
  `src/core/models.py` declare them (`severity : str`,
  `line_number : int | None`, ...); the embedding models response documents
  whose field values fit those annotations, and maps a value of another shape
  to a `typeError`.
-/

namespace CodeReview

/-- Kinds of Python exceptions the embedded code can raise. -/
inductive PyErr where
  | keyError (key : String)
  | valueError (msg : String)
  | typeError (msg : String)
  | attrError (msg : String)
  | apiError (msg : String)
  deriving DecidableEq

/-- JSON documents as returned by `json.loads`. -/
inductive Json where
  | null
  | bool (b : Bool)
  | num (n : Int)
  | str (s : String)
  | arr (elems : List Json)
  | obj (fields : List (String × Json))

/-- `CodeReviewFinding` from `src/core/models.py`. -/
structure CodeReviewFinding where
  severity : String
  category : String
  line_number : Option Int
  code_snippet : Option String
  description : String
  recommendation : String
  agent : String
  deriving DecidableEq

/-- `AgentReview` from `src/core/models.py`. -/
structure AgentReview where
  agent_name : String
  findings : List CodeReviewFinding := []
  summary : String := ""
  thinking_process : String := ""
  deriving DecidableEq

/-- `CodeReviewReport` from `src/core/models.py`; `agent_reviews` is the
insertion-ordered dict, as an association list. -/
structure CodeReviewReport where
  file_name : String
  total_issues : Nat
  critical_count : Nat
  high_count : Nat
  medium_count : Nat
  low_count : Nat
  info_count : Nat
  agent_reviews : List (String × AgentReview) := []
  consolidated_summary : String := ""
  top_recommendations : List String := []
  deriving DecidableEq

/-- Python dict assignment `d[k] = v`: overwrite in place when the key is
present, append otherwise. -/
def dictSet {α : Type} (d : List (String × α)) (k : String) (v : α) :
    List (String × α) :=
  if (d.lookup k).isSome then
    d.map fun p => if p.1 = k then (k, v) else p
  else
    d ++ [(k, v)]

/-- Python `j.get(key, dflt)`: only a dict has `.get`, any other value
raises `AttributeError`. -/
def pyGetD : Json → String → Json → Except PyErr Json
  | .obj kvs, key, dflt => .ok ((kvs.lookup key).getD dflt)
  | _, _, _ => .error (.attrError "object has no attribute get")

/-- Python subscript `j[key]` with a string key: a dict either yields the
value or raises `KeyError`; every other value raises `TypeError`. -/
def pySubscript : Json → String → Except PyErr Json
  | .obj kvs, key =>
      match kvs.lookup key with
      | some v => .ok v
      | none => .error (.keyError key)
  | _, _ => .error (.typeError "value is not subscriptable by a string key")

/-- Python `for x in j`: lists yield elements, dicts their keys, strings
their characters; other values raise `TypeError`. -/
def pyIterate : Json → Except PyErr (List Json)
  | .arr xs => .ok xs
  | .obj kvs => .ok (kvs.map fun p => Json.str p.1)
  | .str s => .ok (s.toList.map fun c => Json.str (String.singleton c))
  | _ => .error (.typeError "object is not iterable")

/-- Read a JSON value into a field annotated `str`. -/
def asStr : Json → Except PyErr String
  | .str s => .ok s
  | _ => .error (.typeError "modelled str field")

/-- Read a JSON value into a field annotated `Optional[int]`. -/
def asOptInt : Json → Except PyErr (Option Int)
  | .null => .ok none
  | .num n => .ok (some n)
  | _ => .error (.typeError "modelled Optional int field")

/-- Read a JSON value into a field annotated `Optional[str]`. -/
def asOptStr : Json → Except PyErr (Option String)
  | .null => .ok none
  | .str s => .ok (some s)
  | _ => .error (.typeError "modelled Optional str field")

/-- One element of the findings list comprehension in
`ReviewAgent.analyze_code`: constructor arguments are evaluated left to
right, so a missing `severity` key raises before a missing `description`. -/
def buildFinding (name : String) (f : Json) : Except PyErr CodeReviewFinding := do
  let severity ← pySubscript f "severity" >>= asStr
  let category := name.toLower
  let line_number ← pyGetD f "line_number" .null >>= asOptInt
  let code_snippet ← pyGetD f "code_snippet" .null >>= asOptStr
  let description ← pySubscript f "description" >>= asStr
  let recommendation ← pySubscript f "recommendation" >>= asStr
  .ok { severity, category, line_number, code_snippet, description,
        recommendation, agent := name }

/-- `ReviewAgent.analyze_code` from `src/core/agent.py`, with the client
call and `json.loads` abstracted as described in the module docstring.
There is no `try/except` anywhere in the source method: every error
propagates to the caller. -/
def analyze_code (name : String) (response : Except PyErr String)
    (loads : String → Except PyErr Json) : Except PyErr AgentReview := do
  let response_text ← response
  let result ← loads response_text
  let rawFindings ← pyGetD result "findings" (Json.arr [])
  let elems ← pyIterate rawFindings
  let findings ← elems.mapM (buildFinding name)
  let summary ← pyGetD result "summary" (Json.str "") >>= asStr
  .ok { agent_name := name, findings := findings, summary := summary,
        thinking_process := "" }

/-- A registered reviewer: its `name` attribute and the behaviour of its
`analyze_code` method (which depends on external collaborators, so it is
kept abstract at the orchestrator level). -/
structure ReviewAgent where
  name : String
  analyze : String → String → Except PyErr AgentReview

/-- `CodeReviewOrchestrator.register_agent`: `self.agents[agent.name] = agent`. -/
def register_agent (agents : List (String × ReviewAgent)) (a : ReviewAgent) :
    List (String × ReviewAgent) :=
  dictSet agents a.name a

/-- The `severity_order` dict literal in `review_code`. -/
def severity_order : List (String × Nat) :=
  [("critical", 0), ("high", 1), ("medium", 2), ("low", 3), ("info", 4)]

/-- The sort key of `review_code`:
`(severity_order.get(f.severity, 5), f.line_number or 0)`. -/
def sortKey (f : CodeReviewFinding) : Nat × Int :=
  ((severity_order.lookup f.severity).getD 5, f.line_number.getD 0)

/-- Lexicographic "key of `f` ≤ key of `g`", the order under which Python's
stable `sorted` arranges the findings. -/
def keyLe (f g : CodeReviewFinding) : Bool :=
  decide ((sortKey f).1 < (sortKey g).1 ∨
    ((sortKey f).1 = (sortKey g).1 ∧ (sortKey f).2 ≤ (sortKey g).2))

/-- `sorted(all_findings, key=...)`: Python's sort is stable, modelled by
`List.mergeSort`. -/
def sortFindings (all_findings : List CodeReviewFinding) :
    List CodeReviewFinding :=
  all_findings.mergeSort keyLe

/-- The `top_recommendations` loop of `review_code`: only the first five
sorted findings are visited; a truthy (non-empty) recommendation not yet in
the list is appended. -/
def topRecommendationsOf (sorted_findings : List CodeReviewFinding) :
    List String :=
  (sorted_findings.take 5).foldl
    (fun acc f =>
      if f.recommendation ≠ "" ∧ f.recommendation ∉ acc then
        acc ++ [f.recommendation]
      else acc)
    []

/-- `CodeReviewOrchestrator._extract_filename`: despite its name it returns
the `agent` field of the first finding of the first review, falling back to
`"Unknown File"`. -/
def extract_filename (agent_reviews : List (String × AgentReview)) : String :=
  match agent_reviews with
  | (_, first_review) :: _ =>
      match first_review.findings with
      | f :: _ => f.agent
      | [] => "Unknown File"
  | [] => "Unknown File"

/-- `CodeReviewOrchestrator._build_summary`, taking the five entries of the
`severity_counts` dict. -/
def build_summary (agent_reviews : List (String × AgentReview))
    (critical high medium low info : Nat) : String :=
  let summary_parts : List String :=
    ["Code Review Summary for " ++ extract_filename agent_reviews ++ ":",
     "- Total Issues Found: " ++ toString (critical + high + medium + low + info),
     "  - Critical: " ++ toString critical,
     "  - High: " ++ toString high,
     "  - Medium: " ++ toString medium,
     "  - Low: " ++ toString low,
     "  - Info: " ++ toString info,
     "",
     "Agent Reviews:"]
  let summary_parts := summary_parts ++
    agent_reviews.filterMap fun p =>
      if p.2.summary ≠ "" then some ("- " ++ p.1 ++ ": " ++ p.2.summary)
      else none
  String.intercalate "\n" summary_parts

/-- One iteration of the fan-out loop of `review_code`: the agent's
`analyze_code` result is stored under its name and its findings are
appended to `all_findings`; an uncaught error aborts the loop. -/
def runStep (code file_path : String)
    (acc : List (String × AgentReview) × List CodeReviewFinding)
    (p : String × ReviewAgent) :
    Except PyErr (List (String × AgentReview) × List CodeReviewFinding) := do
  let review ← p.2.analyze code file_path
  .ok (dictSet acc.1 p.1 review, acc.2 ++ review.findings)

/-- The fan-out loop of `review_code` (sequential, as the source comment
notes). -/
def runAgents (agents : List (String × ReviewAgent)) (code file_path : String) :
    Except PyErr (List (String × AgentReview) × List CodeReviewFinding) :=
  agents.foldlM (runStep code file_path) ([], [])

/-- The aggregation tail of `review_code`: severity tally, canonical sort,
top recommendations, consolidated summary and the report record. -/
def buildReport (file_path : String)
    (agent_reviews : List (String × AgentReview))
    (all_findings : List CodeReviewFinding) : CodeReviewReport :=
  let critical := all_findings.countP fun f => f.severity == "critical"
  let high := all_findings.countP fun f => f.severity == "high"
  let medium := all_findings.countP fun f => f.severity == "medium"
  let low := all_findings.countP fun f => f.severity == "low"
  let info := all_findings.countP fun f => f.severity == "info"
  let sorted_findings := sortFindings all_findings
  let top_recommendations := topRecommendationsOf sorted_findings
  let consolidated_summary := build_summary agent_reviews critical high medium low info
  { file_name := file_path,
    total_issues := all_findings.length,
    critical_count := critical,
    high_count := high,
    medium_count := medium,
    low_count := low,
    info_count := info,
    agent_reviews := agent_reviews,
    consolidated_summary := consolidated_summary,
    top_recommendations := top_recommendations }

/-- `CodeReviewOrchestrator.review_code`. -/
def review_code (agents : List (String × ReviewAgent)) (code file_path : String) :
    Except PyErr CodeReviewReport := do
  let (agent_reviews, all_findings) ← runAgents agents code file_path
  .ok (buildReport file_path agent_reviews all_findings)

/-- Findings of all recorded reviews, concatenated in recording order. -/
def allFindingsOf (agent_reviews : List (String × AgentReview)) :
    List CodeReviewFinding :=
  (agent_reviews.map fun p => p.2.findings).flatten

/-- The five severity strings of the JSON finding contract. -/
def severityEnum : List String := ["critical", "high", "medium", "low", "info"]

/-- Keep-first deduplication of a list of strings (the first occurrence
wins), used to restate the `top_recommendations` loop. -/
def dedupKeepFirst (l : List String) : List String :=
  l.foldl (fun acc s => if s ∈ acc then acc else acc ++ [s]) []

/-- Modelled from the spec (§4.4): iterate findings in canonical order,
append each finding's `recommendation` if not already present (string
equality), stop once 5 distinct recommendations are collected or the input
is exhausted. -/
def specTopRecommendations (sorted_findings : List CodeReviewFinding) :
    List String :=
  sorted_findings.foldl
    (fun acc f =>
      if 5 ≤ acc.length then acc
      else if f.recommendation ∈ acc then acc
      else acc ++ [f.recommendation])
    []

/-- Modelled from the spec (§4.4): `severityRank(critical=0,...,info=4)`;
the rank of a string outside the enum is immaterial to the claims and is
set to 5. -/
def specSeverityRank (s : String) : Nat :=
  (severity_order.lookup s).getD 5

/-- Modelled from the spec (§4.4): the four-part canonical key
`(severityRank, lineNumber or 0, reviewerName, positionWithinReviewerOutput)`
of a finding annotated with its reviewer name and position. -/
def specKey (t : String × Nat × CodeReviewFinding) : Nat × Int × String × Nat :=
  (specSeverityRank t.2.2.severity, t.2.2.line_number.getD 0, t.1, t.2.1)

/-- Lexicographic "four-part key of `a` ≤ four-part key of `b`"; reviewer
names are compared by their character sequences. -/
def specKeyLe (a b : String × Nat × CodeReviewFinding) : Bool :=
  decide ((specKey a).1 < (specKey b).1 ∨ ((specKey a).1 = (specKey b).1 ∧
    ((specKey a).2.1 < (specKey b).2.1 ∨ ((specKey a).2.1 = (specKey b).2.1 ∧
      ((specKey a).2.2.1.data < (specKey b).2.2.1.data ∨
        ((specKey a).2.2.1 = (specKey b).2.2.1 ∧
          (specKey a).2.2.2 ≤ (specKey b).2.2.2))))))

/-- Modelled from the spec (§4.4): the canonical finding order — a stable
sort of all findings of the successful outcomes by the four-part key.
Reviewers are given with their ordered outputs so that
`positionWithinReviewerOutput` is meaningful. -/
def specCanonicalOrder (perReviewer : List (String × List CodeReviewFinding)) :
    List CodeReviewFinding :=
  (((perReviewer.map fun p => p.2.enum.map fun q => (p.1, q.1, q.2)).flatten).mergeSort
    specKeyLe).map fun t => t.2.2

/-- A reviewer whose `analyze_code` behaviour is a fixed outcome, for
concrete runs. -/
def constAgent (name : String) (out : Except PyErr AgentReview) :
    String × ReviewAgent :=
  (name, { name := name, analyze := fun _ _ => out })

/-- A concrete finding for counterexample runs. -/
def mkFinding (sev : String) (line : Option Int) (rec agent : String) :
    CodeReviewFinding :=
  { severity := sev, category := agent, line_number := line,
    code_snippet := none, description := "d", recommendation := rec,
    agent := agent }

/-- A findings-array element carrying the three required keys. -/
def mkElem (sev desc rec : String) : Json :=
  .obj [("severity", .str sev), ("description", .str desc),
        ("recommendation", .str rec)]

/-- A findings-array element missing the `description` key. -/
def mkElemNoDesc (sev rec : String) : Json :=
  .obj [("severity", .str sev), ("recommendation", .str rec)]

/-- Severity is one of the five enum values, as the chain of string
comparisons `review_code` tallies. -/
def isEnumSeverity (f : CodeReviewFinding) : Bool :=
  (((f.severity == "critical" || f.severity == "high") ||
    f.severity == "medium") || f.severity == "low") || f.severity == "info"

/-- A `json.loads` behaviour that fails on every input, as on text that is
not valid JSON. -/
def badLoads : String → Except PyErr Json :=
  fun _ => .error (.valueError "Expecting value: line 1 column 1 (char 0)")

/-- A `json.loads` behaviour returning a fixed parsed document. -/
def goodLoadsDoc (doc : Json) : String → Except PyErr Json :=
  fun _ => .ok doc

/-- Concrete review data for witness runs: a security review with one
finding. -/
def wReviewA : AgentReview :=
  { agent_name := "security",
    findings := [mkFinding "high" (some 3) "Use parameterized queries" "security"],
    summary := "one injection risk" }

/-- Concrete review data for witness runs: a style review with one
finding. -/
def wReviewB : AgentReview :=
  { agent_name := "style",
    findings := [mkFinding "info" none "Add docstrings" "style"],
    summary := "minor style notes" }

/-- A registry of two well-behaved reviewers for witness runs. -/
def wAgents : List (String × ReviewAgent) :=
  [constAgent "security" (.ok wReviewA), constAgent "style" (.ok wReviewB)]

/-- The review dict `review_code` records for `wAgents`. -/
def wRevs : List (String × AgentReview) :=
  [("security", wReviewA), ("style", wReviewB)]

/-- The collected findings of a `wAgents` run. -/
def wFinds : List CodeReviewFinding := wReviewA.findings ++ wReviewB.findings

/-- The report of a `wAgents` run on `"app.py"`. -/
def wReport : CodeReviewReport := buildReport "app.py" wRevs wFinds

/-- Six findings of one reviewer, of equal severity and increasing line
numbers: the first five recommendations contain a duplicate while the six
findings carry five distinct recommendation strings. -/
def c6Findings : List CodeReviewFinding :=
  [mkFinding "high" (some 1) "r1" "security",
   mkFinding "high" (some 2) "r1" "security",
   mkFinding "high" (some 3) "r2" "security",
   mkFinding "high" (some 4) "r3" "security",
   mkFinding "high" (some 5) "r4" "security",
   mkFinding "high" (some 6) "r5" "security"]

/-- A finding by reviewer `"zeta"` with the same severity and line number as
`c7alpha`. -/
def c7zeta : CodeReviewFinding := mkFinding "high" (some 3) "Zr" "zeta"

/-- A finding by reviewer `"alpha"` with the same severity and line number as
`c7zeta`. -/
def c7alpha : CodeReviewFinding := mkFinding "high" (some 3) "Ar" "alpha"

/-! ### Supporting lemmas -/

/-- A key that is not among the dict's keys has no binding. -/
theorem lookup_eq_none_of_not_mem {α : Type} :
    ∀ {d : List (String × α)} {k : String}, k ∉ d.map Prod.fst →
      d.lookup k = none
  | [], _, _ => rfl
  | (a, _) :: rest, k, h => by
      simp only [List.map_cons, List.mem_cons, not_or] at h
      rw [List.lookup_cons]
      rw [beq_eq_false_iff_ne.mpr h.1]
      exact lookup_eq_none_of_not_mem h.2

/-- Python dict assignment with a fresh key appends the binding. -/
theorem dictSet_of_not_mem {α : Type} {d : List (String × α)} {k : String}
    (v : α) (h : k ∉ d.map Prod.fst) : dictSet d k v = d ++ [(k, v)] := by
  simp [dictSet, lookup_eq_none_of_not_mem h]

/-- Invariant of the fan-out loop: with distinct registered names the loop
extends the review dict in registration order, and `all_findings` is the
concatenation of the recorded reviews' findings. -/
theorem foldl_runStep_spec (code file_path : String)
    (agents : List (String × ReviewAgent)) :
    ∀ (acc : List (String × AgentReview) × List CodeReviewFinding)
      (revs : List (String × AgentReview)) (finds : List CodeReviewFinding),
      (acc.1.map Prod.fst ++ agents.map Prod.fst).Nodup →
      acc.2 = allFindingsOf acc.1 →
      List.foldlM (runStep code file_path) acc agents = .ok (revs, finds) →
      revs.map Prod.fst = acc.1.map Prod.fst ++ agents.map Prod.fst ∧
        finds = allFindingsOf revs := by
  induction agents with
  | nil =>
      intro acc revs finds hnd hinv hok
      rw [List.foldlM_nil] at hok
      simp only [pure, Except.pure, Except.ok.injEq] at hok
      subst hok
      exact ⟨by simp, hinv⟩
  | cons p rest ih =>
      intro acc revs finds hnd hinv hok
      rw [List.foldlM_cons] at hok
      cases ha : p.2.analyze code file_path with
      | error e => simp [runStep, ha, bind, Except.bind] at hok
      | ok review =>
          have hfresh : p.1 ∉ acc.1.map Prod.fst := by
            rw [List.nodup_append] at hnd
            intro hm
            exact hnd.2.2 hm (List.mem_cons_self _ _)
          simp only [runStep, ha, bind, Except.bind] at hok
          rw [dictSet_of_not_mem _ hfresh] at hok
          have hnd' : ((acc.1 ++ [(p.1, review)]).map Prod.fst ++
              rest.map Prod.fst).Nodup := by
            simpa [List.append_assoc] using hnd
          have hinv' : acc.2 ++ review.findings =
              allFindingsOf (acc.1 ++ [(p.1, review)]) := by
            simp [allFindingsOf, hinv]
          have := ih (acc.1 ++ [(p.1, review)], acc.2 ++ review.findings)
            revs finds hnd' hinv' hok
          simpa [List.append_assoc] using this

/-- Specification of a successful `runAgents` run. -/
theorem runAgents_ok_spec {agents : List (String × ReviewAgent)}
    {code file_path : String} {revs : List (String × AgentReview)}
    {finds : List CodeReviewFinding}
    (hnd : (agents.map Prod.fst).Nodup)
    (hok : runAgents agents code file_path = .ok (revs, finds)) :
    revs.map Prod.fst = agents.map Prod.fst ∧ finds = allFindingsOf revs := by
  have := foldl_runStep_spec code file_path agents ([], []) revs finds
    (by simpa using hnd) (by simp [allFindingsOf]) hok
  simpa using this

/-- A successful `review_code` run is exactly a successful fan-out followed
by the deterministic aggregation. -/
theorem review_code_ok_iff {agents : List (String × ReviewAgent)}
    {code file_path : String} {r : CodeReviewReport} :
    review_code agents code file_path = .ok r ↔
      ∃ revs finds, runAgents agents code file_path = .ok (revs, finds) ∧
        r = buildReport file_path revs finds := by
  unfold review_code
  cases h : runAgents agents code file_path with
  | error e => simp [h, bind, Except.bind]
  | ok a =>
      cases a with
      | mk revs finds =>
          simp only [h, bind, Except.bind, Except.ok.injEq]
          constructor
          · intro he
            exact ⟨revs, finds, rfl, he.symm⟩
          · rintro ⟨revs2, finds2, heq, hr⟩
            cases heq
            exact hr.symm

/-- The `top_recommendations` fold over any findings list and accumulator
equals the keep-first deduplicating fold over the non-empty
recommendations. -/
theorem topRec_foldl_eq (fs : List CodeReviewFinding) :
    ∀ acc : List String,
      fs.foldl
        (fun acc f =>
          if f.recommendation ≠ "" ∧ f.recommendation ∉ acc then
            acc ++ [f.recommendation]
          else acc) acc =
      ((fs.map fun f => f.recommendation).filter fun s => s ≠ "").foldl
        (fun acc s => if s ∈ acc then acc else acc ++ [s]) acc := by
  induction fs with
  | nil => intro acc; rfl
  | cons f rest ih =>
      intro acc
      simp only [List.foldl_cons, List.map_cons]
      by_cases he : f.recommendation = ""
      · rw [List.filter_cons_of_neg (by simp [he])]
        rw [if_neg (by simp [he])]
        exact ih acc
      · rw [List.filter_cons_of_pos (by simp [he])]
        simp only [List.foldl_cons]
        by_cases hm : f.recommendation ∈ acc
        · rw [if_neg (by simp [hm]), if_pos hm]
          exact ih acc
        · rw [if_pos ⟨he, hm⟩, if_neg hm]
          exact ih _

/-- `top_recommendations` is the keep-first deduplication of the non-empty
recommendations of the first five sorted findings. -/
theorem topRecommendationsOf_eq (l : List CodeReviewFinding) :
    topRecommendationsOf l =
      dedupKeepFirst (((l.take 5).map fun f => f.recommendation).filter
        fun s => s ≠ "") :=
  topRec_foldl_eq (l.take 5) []

/-- The keep-first deduplicating fold preserves distinctness. -/
theorem dedupKeepFirst_go_nodup :
    ∀ (l acc : List String), acc.Nodup →
      (l.foldl (fun acc s => if s ∈ acc then acc else acc ++ [s]) acc).Nodup
  | [], _, h => h
  | s :: rest, acc, h => by
      simp only [List.foldl_cons]
      by_cases hm : s ∈ acc
      · rw [if_pos hm]
        exact dedupKeepFirst_go_nodup rest acc h
      · rw [if_neg hm]
        refine dedupKeepFirst_go_nodup rest _ ?_
        rw [List.nodup_append]
        refine ⟨h, List.nodup_singleton s, ?_⟩
        intro a ha hs
        rw [List.mem_singleton] at hs
        exact hm (hs ▸ ha)

/-- Each step of the keep-first deduplicating fold grows the accumulator by
at most one element. -/
theorem dedupKeepFirst_go_length :
    ∀ (l acc : List String),
      (l.foldl (fun acc s => if s ∈ acc then acc else acc ++ [s]) acc).length ≤
        acc.length + l.length
  | [], acc => by simp
  | s :: rest, acc => by
      simp only [List.foldl_cons, List.length_cons]
      by_cases hm : s ∈ acc
      · rw [if_pos hm]
        have := dedupKeepFirst_go_length rest acc
        omega
      · rw [if_neg hm]
        have := dedupKeepFirst_go_length rest (acc ++ [s])
        simp only [List.length_append, List.length_singleton] at this
        omega

/-- `dedupKeepFirst` produces a list with no duplicates. -/
theorem dedupKeepFirst_nodup (l : List String) : (dedupKeepFirst l).Nodup :=
  dedupKeepFirst_go_nodup l [] List.nodup_nil

/-- `dedupKeepFirst` never lengthens the list. -/
theorem dedupKeepFirst_length (l : List String) :
    (dedupKeepFirst l).length ≤ l.length := by
  have := dedupKeepFirst_go_length l []
  simpa using this

/-- The two-part sort key order of `review_code` is transitive. -/
theorem keyLe_trans (a b c : CodeReviewFinding) :
    keyLe a b = true → keyLe b c = true → keyLe a c = true := by
  simp only [keyLe, decide_eq_true_eq]
  omega

/-- The two-part sort key order of `review_code` is total. -/
theorem keyLe_total (a b : CodeReviewFinding) :
    (keyLe a b || keyLe b a) = true := by
  simp only [keyLe, Bool.or_eq_true, decide_eq_true_eq]
  omega

/-- The report's `file_name` field is the `file_path` argument. -/
theorem buildReport_file_name (fp : String) (revs : List (String × AgentReview))
    (finds : List CodeReviewFinding) : (buildReport fp revs finds).file_name = fp :=
  rfl

/-- The report's `agent_reviews` field is the recorded review dict. -/
theorem buildReport_agent_reviews (fp : String)
    (revs : List (String × AgentReview)) (finds : List CodeReviewFinding) :
    (buildReport fp revs finds).agent_reviews = revs := rfl

/-- The report's `total_issues` field is the length of `all_findings`. -/
theorem buildReport_total_issues (fp : String)
    (revs : List (String × AgentReview)) (finds : List CodeReviewFinding) :
    (buildReport fp revs finds).total_issues = finds.length := rfl

/-- The report's `top_recommendations` field is the recommendation loop run
on the sorted findings. -/
theorem buildReport_top_recommendations (fp : String)
    (revs : List (String × AgentReview)) (finds : List CodeReviewFinding) :
    (buildReport fp revs finds).top_recommendations =
      topRecommendationsOf (sortFindings finds) := rfl

/-- The report's five severity-count fields are the severity tallies. -/
theorem buildReport_counts (fp : String)
    (revs : List (String × AgentReview)) (finds : List CodeReviewFinding) :
    (buildReport fp revs finds).critical_count =
        finds.countP (fun f => f.severity == "critical") ∧
      (buildReport fp revs finds).high_count =
        finds.countP (fun f => f.severity == "high") ∧
      (buildReport fp revs finds).medium_count =
        finds.countP (fun f => f.severity == "medium") ∧
      (buildReport fp revs finds).low_count =
        finds.countP (fun f => f.severity == "low") ∧
      (buildReport fp revs finds).info_count =
        finds.countP (fun f => f.severity == "info") :=
  ⟨rfl, rfl, rfl, rfl, rfl⟩

/-- The witness registry's run evaluates to the witness report. -/
theorem review_code_wAgents :
    review_code wAgents "x = 1" "app.py" = .ok wReport := rfl

/-- Per-finding indicator: the five severity comparisons sum to the enum
membership indicator. -/
theorem enum_indicator (f : CodeReviewFinding) :
    ((if f.severity == "critical" then 1 else 0) +
      (if f.severity == "high" then 1 else 0) +
      (if f.severity == "medium" then 1 else 0) +
      (if f.severity == "low" then 1 else 0) +
      (if f.severity == "info" then 1 else 0) : Nat) =
      if isEnumSeverity f then 1 else 0 := by
  by_cases h1 : f.severity = "critical"
  · simp [isEnumSeverity, h1]
  · by_cases h2 : f.severity = "high"
    · simp [isEnumSeverity, h2]
    · by_cases h3 : f.severity = "medium"
      · simp [isEnumSeverity, h3]
      · by_cases h4 : f.severity = "low"
        · simp [isEnumSeverity, h4]
        · by_cases h5 : f.severity = "info"
          · simp [isEnumSeverity, h5]
          · simp [isEnumSeverity, h1, h2, h3, h4, h5]

/-- The five severity tallies of `review_code` sum to the number of findings
whose severity is one of the five enum values. -/
theorem severity_counts_sum (l : List CodeReviewFinding) :
    l.countP (fun f => f.severity == "critical") +
      l.countP (fun f => f.severity == "high") +
      l.countP (fun f => f.severity == "medium") +
      l.countP (fun f => f.severity == "low") +
      l.countP (fun f => f.severity == "info") =
      l.countP isEnumSeverity := by
  induction l with
  | nil => rfl
  | cons f rest ih =>
      simp only [List.countP_cons]
      have hf := enum_indicator f
      omega

/-- The Boolean enum check agrees with membership in `severityEnum`. -/
theorem isEnumSeverity_iff (f : CodeReviewFinding) :
    isEnumSeverity f = true ↔ f.severity ∈ severityEnum := by
  simp [isEnumSeverity, severityEnum, or_assoc]

/-! ### Claims -/

/-- C10: for every run of `review_code` that returns a report, the report's
`file_name` field equals the `file_path` argument exactly, whatever the
reviewers returned — even when the consolidated summary's header names
something other than the file path. -/
theorem C10_file_name_eq_file_path (agents : List (String × ReviewAgent))
    (code file_path : String) (r : CodeReviewReport)
    (hok : review_code agents code file_path = .ok r) :
    r.file_name = file_path := by
  obtain ⟨revs, finds, hrun, hr⟩ := review_code_ok_iff.mp hok
  rw [hr, buildReport_file_name]

/-- C10 witness: a concrete two-reviewer run on `"app.py"` (whose summary
header names the agent `"security"`, not the path). -/
theorem C10_witness : wReport.file_name = "app.py" :=
  C10_file_name_eq_file_path wAgents "x = 1" "app.py" wReport review_code_wAgents

/-- C5: for every registry with distinct registered reviewer names and every
input, a report returned by `review_code` carries exactly one entry per
registered reviewer name, in registration order — no reviewer is omitted. -/
theorem C5_one_outcome_per_reviewer (agents : List (String × ReviewAgent))
    (code file_path : String) (r : CodeReviewReport)
    (hnd : (agents.map Prod.fst).Nodup)
    (hok : review_code agents code file_path = .ok r) :
    r.agent_reviews.map Prod.fst = agents.map Prod.fst ∧
      r.agent_reviews.length = agents.length := by
  obtain ⟨revs, finds, hrun, hr⟩ := review_code_ok_iff.mp hok
  obtain ⟨hkeys, -⟩ := runAgents_ok_spec hnd hrun
  subst hr
  rw [buildReport_agent_reviews]
  refine ⟨hkeys, ?_⟩
  have := congrArg List.length hkeys
  simpa using this

/-- C5 witness: the concrete two-reviewer registry. -/
theorem C5_witness :
    (wAgents.map Prod.fst).Nodup ∧
      (wReport.agent_reviews.map Prod.fst = wAgents.map Prod.fst ∧
        wReport.agent_reviews.length = wAgents.length) :=
  ⟨by decide, C5_one_outcome_per_reviewer wAgents "x = 1" "app.py" wReport
    (by decide) review_code_wAgents⟩

/-- C9: for every report produced by `review_code`, `top_recommendations`
has no duplicate strings and at most five entries. -/
theorem C9_top_recommendations_nodup_bounded (agents : List (String × ReviewAgent))
    (code file_path : String) (r : CodeReviewReport)
    (hok : review_code agents code file_path = .ok r) :
    r.top_recommendations.Nodup ∧ r.top_recommendations.length ≤ 5 := by
  obtain ⟨revs, finds, hrun, hr⟩ := review_code_ok_iff.mp hok
  subst hr
  rw [buildReport_top_recommendations, topRecommendationsOf_eq]
  constructor
  · exact dedupKeepFirst_nodup _
  · refine le_trans (dedupKeepFirst_length _) ?_
    refine le_trans (List.length_filter_le _ _) ?_
    rw [List.length_map, List.length_take]
    exact min_le_left _ _

/-- C9 witness: the concrete two-reviewer run. -/
theorem C9_witness :
    wReport.top_recommendations.Nodup ∧ wReport.top_recommendations.length ≤ 5 :=
  C9_top_recommendations_nodup_bounded wAgents "x = 1" "app.py" wReport
    review_code_wAgents

/-- C1 counterexample: a reviewer returning one finding with severity
`"urgent"` (outside the enum) yields a report with `total_issues = 1` while
the five severity counts sum to 0 — the claimed equality fails. -/
theorem C1_counterexample :
    (review_code [constAgent "security"
        (.ok ⟨"security", [mkFinding "urgent" none "r" "security"], "s", ""⟩)]
      "c" "p").map
      (fun r => (r.total_issues,
        r.critical_count + r.high_count + r.medium_count + r.low_count +
          r.info_count)) = .ok (1, 0) := rfl

/-- C1 (amended): `total_issues` equals the number of findings across all
recorded reviews; the five severity counts sum to the number of findings
whose severity is one of the five enum values; the two coincide whenever
every finding's severity is in the enum (but not in general). -/
theorem C1_amended (agents : List (String × ReviewAgent))
    (code file_path : String) (r : CodeReviewReport)
    (hnd : (agents.map Prod.fst).Nodup)
    (hok : review_code agents code file_path = .ok r) :
    r.total_issues = (allFindingsOf r.agent_reviews).length ∧
      r.critical_count + r.high_count + r.medium_count + r.low_count +
          r.info_count =
        (allFindingsOf r.agent_reviews).countP isEnumSeverity ∧
      ((∀ f ∈ allFindingsOf r.agent_reviews, f.severity ∈ severityEnum) →
        r.total_issues =
          r.critical_count + r.high_count + r.medium_count + r.low_count +
            r.info_count) := by
  obtain ⟨revs, finds, hrun, hr⟩ := review_code_ok_iff.mp hok
  obtain ⟨-, hfinds⟩ := runAgents_ok_spec hnd hrun
  subst hr
  rw [buildReport_agent_reviews, buildReport_total_issues]
  obtain ⟨hc, hh, hm, hl, hi⟩ := buildReport_counts file_path revs finds
  rw [hc, hh, hm, hl, hi, severity_counts_sum, ← hfinds]
  refine ⟨rfl, rfl, ?_⟩
  intro hall
  have := (List.countP_eq_length (p := isEnumSeverity)).mpr
    (fun f hf => (isEnumSeverity_iff f).mpr (hall f hf))
  exact this.symm

/-- C1 witness: the concrete two-reviewer run, whose findings all carry
enum severities. -/
theorem C1_witness :
    (wAgents.map Prod.fst).Nodup ∧
      (wReport.total_issues = (allFindingsOf wReport.agent_reviews).length ∧
        wReport.critical_count + wReport.high_count + wReport.medium_count +
            wReport.low_count + wReport.info_count =
          (allFindingsOf wReport.agent_reviews).countP isEnumSeverity ∧
        ((∀ f ∈ allFindingsOf wReport.agent_reviews,
            f.severity ∈ severityEnum) →
          wReport.total_issues =
            wReport.critical_count + wReport.high_count + wReport.medium_count +
              wReport.low_count + wReport.info_count)) :=
  ⟨by decide, C1_amended wAgents "x = 1" "app.py" wReport (by decide)
    review_code_wAgents⟩

/-- C2 counterexample: a reviewer whose `analyze_code` raises makes the
whole `review_code` call raise to its caller; the sibling registered after
it is never consulted and no outcome mapping is produced. -/
theorem C2_counterexample :
    review_code [constAgent "boom" (.error (.apiError "connection error")),
      constAgent "style" (.ok ⟨"style", [], "", ""⟩)] "c" "p" =
    .error (.apiError "connection error") := rfl

/-- C2 (amended): the orchestrator has no error handling: when every
reviewer before some reviewer succeeds and that reviewer's `analyze_code`
raises, the exception propagates out of `review_code` unchanged — no
outcome mapping is produced, and reviewers registered after the raising one
are never invoked. -/
theorem C2_amended (pre : List (String × ReviewAgent)) (p : String × ReviewAgent)
    (post : List (String × ReviewAgent)) (code file_path : String) (e : PyErr)
    (acc : List (String × AgentReview) × List CodeReviewFinding)
    (hpre : runAgents pre code file_path = .ok acc)
    (hbad : p.2.analyze code file_path = .error e) :
    review_code (pre ++ p :: post) code file_path = .error e := by
  have hrun : runAgents (pre ++ p :: post) code file_path = .error e := by
    unfold runAgents at hpre ⊢
    rw [List.foldlM_append, hpre]
    simp only [bind, Except.bind]
    rw [List.foldlM_cons]
    simp [runStep, hbad, bind, Except.bind]
  unfold review_code
  rw [hrun]
  simp [bind, Except.bind]

/-- C2 witness: a succeeding reviewer, then a raising reviewer, then a
sibling; the concrete run aborts with the raised error. -/
theorem C2_witness :
    runAgents [constAgent "security" (.ok wReviewA)] "c" "p" =
        .ok ([("security", wReviewA)], wReviewA.findings) ∧
      (constAgent "boom" (.error (.apiError "net down"))).2.analyze "c" "p" =
        .error (.apiError "net down") ∧
      review_code ([constAgent "security" (.ok wReviewA)] ++
          constAgent "boom" (.error (.apiError "net down")) ::
            [constAgent "style" (.ok wReviewB)]) "c" "p" =
        .error (.apiError "net down") :=
  ⟨rfl, rfl,
    C2_amended [constAgent "security" (.ok wReviewA)]
      (constAgent "boom" (.error (.apiError "net down")))
      [constAgent "style" (.ok wReviewB)] "c" "p" (.apiError "net down")
      ([("security", wReviewA)], wReviewA.findings) rfl rfl⟩

/-- C3 counterexample: the first reviewer's completion returns unparseable
text; the `json.loads` ValueError propagates out of `review_code`, so no
outcome is recorded for any reviewer — the sibling's successful review is
lost rather than unaffected. -/
theorem C3_counterexample :
    review_code [("security", ⟨"security",
        fun _ _ => analyze_code "security" (.ok "I am not JSON") badLoads⟩),
      constAgent "style" (.ok wReviewB)] "c" "p" =
    .error (.valueError "Expecting value: line 1 column 1 (char 0)") := rfl

/-- C3 (amended): unparseable response text makes `json.loads` raise; the
error propagates out of `analyze_code` (no Failure outcome exists in the
code) and out of `review_code`, so no reviewer — successful siblings
included — gets an outcome recorded. -/
theorem C3_amended (name text : String) (loads : String → Except PyErr Json)
    (e : PyErr) (hl : loads text = .error e) :
    analyze_code name (.ok text) loads = .error e ∧
      ∀ (rest : List (String × ReviewAgent)) (code file_path : String),
        review_code ((name, ⟨name,
            fun _ _ => analyze_code name (.ok text) loads⟩) :: rest)
          code file_path = .error e := by
  have h1 : analyze_code name (.ok text) loads = .error e := by
    simp [analyze_code, hl, bind, Except.bind]
  refine ⟨h1, fun rest code fp => ?_⟩
  have hrun : runAgents ((name, (⟨name,
      fun _ _ => analyze_code name (.ok text) loads⟩ : ReviewAgent)) :: rest)
      code fp = .error e := by
    unfold runAgents
    rw [List.foldlM_cons]
    simp [runStep, h1, bind, Except.bind]
  unfold review_code
  rw [hrun]
  simp [bind, Except.bind]

/-- C3 witness: a concrete reviewer fed unparseable text, alone in the
registry; `review_code` raises the parse error. -/
theorem C3_witness :
    badLoads "oops" =
        .error (.valueError "Expecting value: line 1 column 1 (char 0)") ∧
      review_code [("perf", ⟨"perf",
          fun _ _ => analyze_code "perf" (.ok "oops") badLoads⟩)] "c" "p" =
        .error (.valueError "Expecting value: line 1 column 1 (char 0)") :=
  ⟨rfl, (C3_amended "perf" "oops" badLoads _ rfl).2 [] "c" "p"⟩

/-- C4 counterexample: a findings element with severity `"urgent"` (outside
the enum) is not dropped: the review succeeds and retains it alongside the
valid element, with the out-of-enum severity stored verbatim. -/
theorem C4_counterexample :
    analyze_code "style" (.ok "resp") (goodLoadsDoc (Json.obj
        [("findings", Json.arr [mkElem "high" "d1" "r1",
          mkElem "urgent" "d2" "r2"]),
         ("summary", Json.str "sum")])) =
    .ok ⟨"style", [⟨"high", "style".toLower, none, none, "d1", "r1", "style"⟩,
      ⟨"urgent", "style".toLower, none, none, "d2", "r2", "style"⟩],
      "sum", ""⟩ := rfl

/-- C4 (amended): `analyze_code` performs no element validation: every
findings element whose `severity`, `description` and `recommendation` keys
are present is turned into a finding whatever its severity string; an
element missing `description` raises `KeyError`, aborting the whole review
rather than dropping the element. -/
theorem C4_amended (name text sev1 d1 r1 sev2 d2 r2 sm : String) :
    analyze_code name (.ok text) (goodLoadsDoc (Json.obj
        [("findings", Json.arr [mkElem sev1 d1 r1, mkElem sev2 d2 r2]),
         ("summary", Json.str sm)])) =
      .ok ⟨name, [⟨sev1, name.toLower, none, none, d1, r1, name⟩,
        ⟨sev2, name.toLower, none, none, d2, r2, name⟩], sm, ""⟩ ∧
    analyze_code name (.ok text) (goodLoadsDoc (Json.obj
        [("findings", Json.arr [mkElem sev1 d1 r1, mkElemNoDesc sev2 r2]),
         ("summary", Json.str sm)])) =
      .error (.keyError "description") := by
  constructor <;>
    simp [analyze_code, goodLoadsDoc, mkElem, mkElemNoDesc, buildFinding,
      pyGetD, pySubscript, pyIterate, asStr, asOptInt, asOptStr,
      bind, Except.bind, pure, Except.pure, List.mapM, List.mapM.loop,
      List.lookup, Option.getD]

/-- C6 counterexample: six findings of one reviewer in canonical order whose
first five recommendations contain one duplicate: the findings carry five
distinct recommendation strings, yet the report's `top_recommendations` has
only four entries, while the spec's iterate-until-five-distinct rule yields
five. -/
theorem C6_counterexample :
    (review_code [constAgent "security" (.ok ⟨"security", c6Findings, "s", ""⟩)]
        "c" "p").map (fun r => r.top_recommendations) =
      .ok ["r1", "r2", "r3", "r4"] ∧
    specTopRecommendations (sortFindings c6Findings) =
      ["r1", "r2", "r3", "r4", "r5"] ∧
    ((c6Findings.map fun f => f.recommendation).dedup).length = 5 := by
  have hs : sortFindings c6Findings = c6Findings :=
    List.mergeSort_of_sorted (by decide)
  refine ⟨?_, ?_, by decide⟩
  · have hrc : review_code [constAgent "security"
        (.ok ⟨"security", c6Findings, "s", ""⟩)] "c" "p" =
        .ok (buildReport "p" [("security", ⟨"security", c6Findings, "s", ""⟩)]
          c6Findings) := rfl
    rw [hrc]
    simp only [Except.map]
    rw [buildReport_top_recommendations, hs]
    simp only [Except.ok.injEq]
    decide
  · rw [hs]
    decide

/-- C6 (amended): `top_recommendations` is computed from only the first
five findings in canonical order — the keep-first deduplication of their
non-empty recommendations — so it can have fewer than five entries even
when the findings carry five or more distinct recommendation strings. -/
theorem C6_amended (agents : List (String × ReviewAgent))
    (code file_path : String) (r : CodeReviewReport)
    (hnd : (agents.map Prod.fst).Nodup)
    (hok : review_code agents code file_path = .ok r) :
    r.top_recommendations = dedupKeepFirst
      ((((sortFindings (allFindingsOf r.agent_reviews)).take 5).map
        fun f => f.recommendation).filter fun s => s ≠ "") := by
  obtain ⟨revs, finds, hrun, hr⟩ := review_code_ok_iff.mp hok
  obtain ⟨-, hfinds⟩ := runAgents_ok_spec hnd hrun
  subst hr
  rw [buildReport_agent_reviews, buildReport_top_recommendations, ← hfinds,
    topRecommendationsOf_eq]

/-- C6 witness: the concrete two-reviewer run. -/
theorem C6_witness :
    (wAgents.map Prod.fst).Nodup ∧
      wReport.top_recommendations = dedupKeepFirst
        ((((sortFindings (allFindingsOf wReport.agent_reviews)).take 5).map
          fun f => f.recommendation).filter fun s => s ≠ "") :=
  ⟨by decide, C6_amended wAgents "x = 1" "app.py" wReport (by decide)
    review_code_wAgents⟩

/-- C7 counterexample: two findings with equal severity rank and equal line
number from reviewers `"zeta"` (registered first) and `"alpha"`: the code
keeps registration order, while the spec's four-part key orders by reviewer
name — the two orders disagree, observably in `top_recommendations`. -/
theorem C7_counterexample :
    sortFindings [c7zeta, c7alpha] = [c7zeta, c7alpha] ∧
      specCanonicalOrder [("zeta", [c7zeta]), ("alpha", [c7alpha])] =
        [c7alpha, c7zeta] ∧
      c7zeta ≠ c7alpha ∧
      sortKey c7zeta = sortKey c7alpha ∧
      (review_code [constAgent "zeta" (.ok ⟨"zeta", [c7zeta], "", ""⟩),
          constAgent "alpha" (.ok ⟨"alpha", [c7alpha], "", ""⟩)] "c" "p").map
        (fun r => r.top_recommendations) = .ok ["Zr", "Ar"] := by
  have hs : sortFindings [c7zeta, c7alpha] = [c7zeta, c7alpha] :=
    List.mergeSort_of_sorted (by decide)
  refine ⟨hs, ?_, by decide, by decide, ?_⟩
  · simp [specCanonicalOrder, specKeyLe, specKey, specSeverityRank,
      severity_order, c7zeta, c7alpha, mkFinding, List.mergeSort, List.merge]
    decide
  · have hrc : review_code [constAgent "zeta" (.ok ⟨"zeta", [c7zeta], "", ""⟩),
        constAgent "alpha" (.ok ⟨"alpha", [c7alpha], "", ""⟩)] "c" "p" =
        .ok (buildReport "p" [("zeta", ⟨"zeta", [c7zeta], "", ""⟩),
          ("alpha", ⟨"alpha", [c7alpha], "", ""⟩)] [c7zeta, c7alpha]) := rfl
    rw [hrc]
    simp only [Except.map]
    rw [buildReport_top_recommendations, hs]
    simp only [Except.ok.injEq]
    decide

/-- C7 (amended): the flat finding list used for ranking is the stable sort
of the collected findings by the two-part key
`(severity rank with unknown severities ranked 5, line number or 0)`: it is
a permutation, pairwise ordered by the key, and any key-ordered sublist of
the input — in particular ties, whichever reviewers they come from — keeps
its collection order (registration order, then position within the
reviewer's output). -/
theorem C7_amended (l : List CodeReviewFinding) :
    (sortFindings l).Perm l ∧
      (sortFindings l).Pairwise (fun a b => keyLe a b = true) ∧
      ∀ c : List CodeReviewFinding,
        c.Pairwise (fun a b => keyLe a b = true) → c.Sublist l →
          c.Sublist (sortFindings l) :=
  ⟨List.mergeSort_perm l keyLe,
    List.sorted_mergeSort keyLe_trans keyLe_total l,
    fun _ hc hs => List.sublist_mergeSort keyLe_trans keyLe_total hc hs⟩

/-- C7 witness: the two tied findings, in collection order, stay in that
order in the sorted output. -/
theorem C7_witness :
    [c7zeta, c7alpha].Sublist (sortFindings [c7zeta, c7alpha]) :=
  (C7_amended [c7zeta, c7alpha]).2.2 [c7zeta, c7alpha] (by decide)
    (List.Sublist.refl _)

/-- C8: evaluation at the failing input — one reviewer named `"Security"`
with one finding, file path `"app.py"`: the consolidated summary's header
line names the agent of the first finding, not the analyzed file. -/
theorem C8_header_names_agent_not_file :
    (review_code [constAgent "Security"
        (.ok ⟨"Security", [mkFinding "high" (some 3) "Fix it" "Security"],
          "one issue", ""⟩)] "x = 1" "app.py").map
      (fun r => r.consolidated_summary) =
    .ok ("Code Review Summary for Security:\n- Total Issues Found: 1\n  - Critical: 0\n  - High: 1\n  - Medium: 0\n  - Low: 0\n  - Info: 0\n\nAgent Reviews:\n- Security: one issue") := by
  rfl

end CodeReview
